import Mathlib

/-!
Shallow embedding of the PO / GRN / MRN extraction app (src/app.py) and
verification of the merge, parsing, prompt-building and export behaviour.

Modelling conventions:
* JSON values decoded from the model response are the inductive `Json`.
* A Python dict (insertion ordered, string keys) is an association list
  `Dict`; `dictInsert` models `d[k] = v` (replace in place, else append),
  `dictFind?` models `d[k]` (with `none` standing for a raised KeyError),
  `dictGet` models `d.get(k, default)`.
* External effects (pdfplumber page texts, the OCI inference call) enter
  as explicit parameters: a page is `Option String` (its extracted text,
  `none`/empty when nothing is extractable), the inference client is a
  function from prompt to raw response text.
-/

/-- JSON values, as produced by decoding the model response
(models the result type of Python `json.loads`). -/
inductive Json where
  | null : Json
  | bool : Bool → Json
  | num : Int → Json
  | str : String → Json
  | arr : List Json → Json
  | obj : List (String × Json) → Json

/-- A Python dict with string keys: insertion-ordered association list. -/
abbrev Dict := List (String × Json)

/-- Lookup of the first binding of a key, models Python `d[k]`
(with `none` for a KeyError). -/
def dictFind? : Dict → String → Option Json
  | [], _ => none
  | (k', v) :: rest, k => if k' = k then some v else dictFind? rest k

/-- Assignment `d[k] = v` on a Python dict: replace the value in place at the
first occurrence of the key, otherwise append the binding at the end. -/
def dictInsert : Dict → String → Json → Dict
  | [], k, v => [(k, v)]
  | (k', v') :: rest, k, v =>
      if k' = k then (k, v) :: rest else (k', v') :: dictInsert rest k v

/-- Models Python `d.get(k, default)`. -/
def dictGet (d : Dict) (k : String) (dflt : Json) : Json :=
  (dictFind? d k).getD dflt

/-- Folding a list of bindings into a dict by repeated assignment; used to
model `{**a, **b, ...}` dict construction. -/
def dictInsertAll (d : Dict) (entries : List (String × Json)) : Dict :=
  entries.foldl (fun acc e => dictInsert acc e.1 e.2) d

theorem dictFind?_insert_self (d : Dict) (k : String) (v : Json) :
    dictFind? (dictInsert d k v) k = some v := by
  induction d with
  | nil => simp [dictInsert, dictFind?]
  | cons e rest ih =>
      obtain ⟨k', v'⟩ := e
      by_cases h : k' = k
      · simp [dictInsert, dictFind?, h]
      · simp [dictInsert, dictFind?, h, ih]

theorem dictFind?_insert_ne (d : Dict) (k : String) (v : Json) (k' : String)
    (h : k ≠ k') : dictFind? (dictInsert d k v) k' = dictFind? d k' := by
  induction d with
  | nil => simp [dictInsert, dictFind?, h]
  | cons e rest ih =>
      obtain ⟨k0, v0⟩ := e
      by_cases h0 : k0 = k
      · subst h0
        simp [dictInsert, dictFind?, h]
      · simp only [dictInsert, if_neg h0, dictFind?]
        by_cases h1 : k0 = k'
        · simp [h1]
        · simp [h1, ih]

/-- Result of one structured extraction: the decoded `header` mapping and
`items` list (spec section 3, "Extraction Result"). -/
structure ExtractionResult where
  header : Dict
  items : List Dict

/-! ## Document loader (src/app.py, extract_pdf_text, lines 40-47)

A PDF is modelled by the list of its pages' extraction outcomes:
`some txt` when `page.extract_text()` returns the string `txt`, `none`
when it returns Python `None`. -/

/-- Body of the page loop of `extract_pdf_text`: append `txt + "\n"` when the
extracted text is truthy (not `None` and not the empty string). -/
def pageFold (acc : String) (p : Option String) : String :=
  match p with
  | some txt => if txt ≠ "" then acc ++ (txt ++ "\n") else acc
  | none => acc

/-- Model of `extract_pdf_text`: fold the page loop body over the pages,
starting from the empty accumulator. -/
def extract_pdf_text (pages : List (Option String)) : String :=
  pages.foldl pageFold ""

/-- The texts of the pages that contribute to the output: pages whose
extraction is neither `None` nor empty, in page order. -/
def pageTexts (pages : List (Option String)) : List String :=
  pages.filterMap
    (fun p =>
      match p with
      | some txt => if txt ≠ "" then some txt else none
      | none => none)

/-- Plain concatenation of a list of strings. -/
def joinAll : List String → String
  | [] => ""
  | s :: rest => s ++ joinAll rest

theorem strAppend_assoc (a b c : String) : a ++ b ++ c = a ++ (b ++ c) := by
  apply String.ext
  simp [String.data_append, List.append_assoc]

theorem strAppend_empty (a : String) : a ++ "" = a := by
  apply String.ext
  simp [String.data_append]

theorem extract_pdf_text_foldl (pages : List (Option String)) :
    ∀ acc : String,
      pages.foldl pageFold acc
        = acc ++ joinAll ((pageTexts pages).map (fun t => t ++ "\n")) := by
  induction pages with
  | nil => intro acc; simp [pageTexts, joinAll, strAppend_empty]
  | cons p rest ih =>
      intro acc
      rw [List.foldl_cons]
      cases p with
      | none =>
          rw [show pageFold acc none = acc from rfl, ih]
          rw [show pageTexts (none :: rest) = pageTexts rest by
            simp [pageTexts]]
      | some txt =>
          by_cases h : txt = ""
          · rw [show pageFold acc (some txt) = acc by simp [pageFold, h], ih]
            rw [show pageTexts (some txt :: rest) = pageTexts rest by
              simp [pageTexts, h]]
          · rw [show pageFold acc (some txt) = acc ++ (txt ++ "\n") by
              simp [pageFold, h], ih]
            rw [show pageTexts (some txt :: rest) = txt :: pageTexts rest by
              simp [pageTexts, h]]
            simp [joinAll, strAppend_assoc]

/-! ## Prompt builder (src/app.py, extract_structured_data, lines 50-144)

The three schemas and instruction blocks are the literals of the source.
The schema appears in the prompt through `json.dumps(schema, indent=2)`;
since each schema is a fixed literal, its serialized form is embedded
below as the fixed string that call produces. -/

/-- Instruction block of the `pdf_type == "PO"` branch. -/
def poInstructions : String :=
  "\n- Extract item-wise data exactly as visible\n- CHAIN is the company name written at the top\n- Base Cost MUST come only from the column labeled \"Base Cost\"\n- Do NOT use MRP\n"

/-- Instruction block of the `pdf_type == "GRN"` branch. -/
def grnInstructions : String :=
  "\nVERY IMPORTANT – FOLLOW EXACTLY:\n\n1. Delivered Qty MUST be taken from the column labeled \"Accepted Qty / MRP\"\n2. This column has TWO values:\n   - TOP value = Accepted Quantity → USE THIS AS Delivered Qty\n   - BOTTOM value = MRP → IGNORE THIS COMPLETELY\n3. Remarks MUST be taken from the column labeled:\n   \"Reason - Short Description\"\n4. Extract ONE item per table row\n5. Do NOT use Challan Qty\n6. Do NOT use Received Qty\n7. Do NOT use totals\n"

/-- Instruction block of the final (MRN) branch. -/
def mrnInstructions : String :=
  "\n- Extract Rejected Amount from MRN item table\n- Use the Total Amount for the rejected material\n- Do NOT infer or calculate values\n"

/-- Serialization of the PO schema literal,
the value of `json.dumps(schema, indent=2)` for that literal. -/
def poSchemaDump : String :=
  "\x7b\n  \"header\": \x7b\n    \"CHAIN\": \"\",\n    \"SITE\": \"\",\n    \"STATE\": \"\",\n    \"Vendor Code\": \"\",\n    \"vendor name\": \"\",\n    \"po no\": \"\",\n    \"po date\": \"\",\n    \"DELIVERY DATE\": \"\"\n  \x7d,\n  \"items\": [\n    \x7b\n      \"Material Description\": \"\",\n      \"Quantity\": \"\",\n      \"total pcs\": \"\",\n      \"Base Cost\": \"\",\n      \"Total Base Value\": \"\"\n    \x7d\n  ]\n\x7d"

/-- Serialization of the GRN schema literal. -/
def grnSchemaDump : String :=
  "\x7b\n  \"header\": \x7b\n    \"GRN no\": \"\",\n    \"GRN Date\": \"\"\n  \x7d,\n  \"items\": [\n    \x7b\n      \"Delivered Qty\": \"\",\n      \"Remarks\": \"\"\n    \x7d\n  ]\n\x7d"

/-- Serialization of the MRN schema literal. -/
def mrnSchemaDump : String :=
  "\x7b\n  \"header\": \x7b\n    \"MRN no\": \"\"\n  \x7d,\n  \"items\": [\n    \x7b\n      \"Rejected Amount\": \"\"\n    \x7d\n  ]\n\x7d"

/-- Selection of the instruction block by document type: the
`if pdf_type == "PO" / elif "GRN" / else` dispatch of the source. -/
def instructionsFor (pdf_type : String) : String :=
  if pdf_type = "PO" then poInstructions
  else if pdf_type = "GRN" then grnInstructions
  else mrnInstructions

/-- Selection of the serialized schema by document type
(same dispatch as `instructionsFor`). -/
def schemaDumpFor (pdf_type : String) : String :=
  if pdf_type = "PO" then poSchemaDump
  else if pdf_type = "GRN" then grnSchemaDump
  else mrnSchemaDump

/-- The prompt f-string of the source, assembled from the selected
instructions, the selected serialized schema, and the raw PDF text
between the `<<<` and `>>>` sentinels. -/
def buildPrompt (pdf_type pdf_text : String) : String :=
  "\nYou are an expert at reading Indian " ++ pdf_type ++ " PDFs.\n\n"
    ++ instructionsFor pdf_type
    ++ "\n\nExtract data EXACTLY as per the schema.\nReturn STRICT JSON ONLY.\n\nSchema:\n"
    ++ schemaDumpFor pdf_type
    ++ "\n\nPDF Text:\n<<<\n"
    ++ pdf_text
    ++ "\n>>>\n"

/-- Everything of the prompt that precedes the raw PDF text. -/
def promptHead (pdf_type : String) : String :=
  "\nYou are an expert at reading Indian " ++ pdf_type ++ " PDFs.\n\n"
    ++ instructionsFor pdf_type
    ++ "\n\nExtract data EXACTLY as per the schema.\nReturn STRICT JSON ONLY.\n\nSchema:\n"
    ++ schemaDumpFor pdf_type
    ++ "\n\nPDF Text:\n<<<\n"

theorem buildPrompt_decompose (pdf_type pdf_text : String) :
    buildPrompt pdf_type pdf_text
      = promptHead pdf_type ++ (pdf_text ++ "\n>>>\n") := by
  simp [buildPrompt, promptHead, strAppend_assoc]

/-- Whether the second list occurs as a prefix of the first. -/
def startsWithSeg : List Char → List Char → Bool
  | _, [] => true
  | [], _ :: _ => false
  | a :: as, b :: bs => a == b && startsWithSeg as bs

/-- Whether the pattern occurs as a contiguous segment of the list. -/
def hasSeg (pat : List Char) : List Char → Bool
  | [] => startsWithSeg [] pat
  | a :: rest => startsWithSeg (a :: rest) pat || hasSeg pat rest

/-- Substring occurrence test over strings. -/
def strContains (s pat : String) : Bool :=
  hasSeg pat.data s.data

/-- The field names of the PO schema (header then item fields). -/
def poFieldNames : List String :=
  ["CHAIN", "SITE", "STATE", "Vendor Code", "vendor name", "po no",
   "po date", "DELIVERY DATE", "Material Description", "Quantity",
   "total pcs", "Base Cost", "Total Base Value"]

/-- The field names of the GRN schema. -/
def grnFieldNames : List String :=
  ["GRN no", "GRN Date", "Delivered Qty", "Remarks"]

/-- The field names of the MRN schema. -/
def mrnFieldNames : List String :=
  ["MRN no", "Rejected Amount"]

/-! ## Response parser (src/app.py, lines 159-164)

The source computes `start = raw.find("{")`, `end = raw.rfind("}") + 1`
and returns `json.loads(raw[start:end])`. Python `find`/`rfind` give -1
when the character is absent, and slicing interprets negative indices
from the end and clamps. Raw text is handled at the `List Char` level. -/

/-- Helper of `pyFind`: index of the first occurrence of the character at
or after position `i`, or -1. -/
def pyFindAux (c : Char) : List Char → Nat → Int
  | [], _ => -1
  | a :: rest, i => if a = c then (i : Int) else pyFindAux c rest (i + 1)

/-- Python `s.find(c)`: lowest index of `c` in `s`, or -1. -/
def pyFind (s : List Char) (c : Char) : Int :=
  pyFindAux c s 0

/-- Python `s.rfind(c)`: highest index of `c` in `s`, or -1, computed as the
mirrored first occurrence in the reversed text. -/
def pyRfind (s : List Char) (c : Char) : Int :=
  let r := pyFindAux c s.reverse 0
  if r < 0 then -1 else (s.length : Int) - 1 - r

/-- Python slice-index normalization: negative indices count from the end,
then the result is clamped into `[0, len]`. -/
def pyIndexClamp (len : Nat) (i : Int) : Nat :=
  (if i < 0 then i + (len : Int) else i).toNat.min len

/-- Python slice `s[a:b]`. -/
def pySlice (s : List Char) (a b : Int) : List Char :=
  let a' := pyIndexClamp s.length a
  let b' := pyIndexClamp s.length b
  (s.drop a').take (b' - a')

/-- The brace slice of the source: from the first opening brace to the last
closing brace inclusive, with Python -1 arithmetic when a brace is absent. -/
def braceSlice (raw : List Char) : List Char :=
  pySlice raw (pyFind raw '{') (pyRfind raw '}' + 1)

/-! A model of Python `json.loads`, restricted to the JSON actually exchanged
here: objects, arrays, strings with the common escapes, integer numbers, and
the three literals. Inputs outside this fragment (floats, unicode escapes)
are rejected; no claim exercises them. -/

/-- Skip JSON whitespace. -/
def skipWs : List Char → List Char
  | c :: rest =>
      if c = ' ' ∨ c = '\t' ∨ c = '\n' ∨ c = '\r' then skipWs rest
      else c :: rest
  | [] => []

/-- The character escapes of a JSON string body, as source/decoded pairs. -/
def escTable : List (Char × Char) :=
  [('"', '"'), ('\\', '\\'), ('/', '/'), ('n', '\n'), ('t', '\t'),
   ('r', '\r'), ('b', Char.ofNat 8), ('f', Char.ofNat 12)]

/-- Decode one character escape of a JSON string body. -/
def escChar (e : Char) : Option Char :=
  (escTable.find? (fun p => p.1 = e)).map (fun p => p.2)

/-- Parse the body of a JSON string up to its closing quote. -/
def parseStrBody : List Char → Option (List Char × List Char)
  | [] => none
  | '"' :: rest => some ([], rest)
  | '\\' :: e :: rest =>
      match escChar e, parseStrBody rest with
      | some c, some (cs, r) => some (c :: cs, r)
      | _, _ => none
  | c :: rest =>
      match parseStrBody rest with
      | some (cs, r) => some (c :: cs, r)
      | none => none

/-- Digit run value: maximal leading digit span and its numeric value. -/
def digitSpan : List Char → Nat → (Nat × Nat × List Char)
  | c :: rest, acc =>
      if c.isDigit then
        let out := digitSpan rest (10 * acc + (c.toNat - 48))
        (out.1 + 1, out.2.1, out.2.2)
      else (0, acc, c :: rest)
  | [], acc => (0, acc, [])

/-- Parse a JSON integer number (optional minus sign, digit run). -/
def parseIntNum : List Char → Option (Int × List Char)
  | '-' :: rest =>
      match digitSpan rest 0 with
      | (0, _, _) => none
      | (_ + 1, v, r) => some (-(v : Int), r)
  | s =>
      match digitSpan s 0 with
      | (0, _, _) => none
      | (_ + 1, v, r) => some ((v : Int), r)

mutual

/-- Parse one JSON value (fuel-bounded recursive descent). -/
def parseVal : Nat → List Char → Option (Json × List Char)
  | 0, _ => none
  | fuel + 1, s =>
      match skipWs s with
      | '{' :: rest =>
          match skipWs rest with
          | '}' :: r2 => some (Json.obj [], r2)
          | r1 =>
              match parseMembers fuel r1 with
              | some (ms, r2) => some (Json.obj ms, r2)
              | none => none
      | '[' :: rest =>
          match skipWs rest with
          | ']' :: r2 => some (Json.arr [], r2)
          | r1 =>
              match parseElems fuel r1 with
              | some (vs, r2) => some (Json.arr vs, r2)
              | none => none
      | '"' :: rest =>
          match parseStrBody rest with
          | some (cs, r) => some (Json.str (String.mk cs), r)
          | none => none
      | 'n' :: 'u' :: 'l' :: 'l' :: rest => some (Json.null, rest)
      | 't' :: 'r' :: 'u' :: 'e' :: rest => some (Json.bool true, rest)
      | 'f' :: 'a' :: 'l' :: 's' :: 'e' :: rest => some (Json.bool false, rest)
      | s1 =>
          match parseIntNum s1 with
          | some (v, r) => some (Json.num v, r)
          | none => none

/-- Parse the members of a JSON object after its opening brace
(position already at the first key). -/
def parseMembers : Nat → List Char → Option (List (String × Json) × List Char)
  | 0, _ => none
  | fuel + 1, s =>
      match s with
      | '"' :: rest =>
          match parseStrBody rest with
          | none => none
          | some (key, r1) =>
              match skipWs r1 with
              | ':' :: r2 =>
                  match parseVal fuel r2 with
                  | none => none
                  | some (v, r3) =>
                      match skipWs r3 with
                      | ',' :: r4 =>
                          match parseMembers fuel (skipWs r4) with
                          | some (ms, r5) =>
                              some ((String.mk key, v) :: ms, r5)
                          | none => none
                      | '}' :: r4 => some ([(String.mk key, v)], r4)
                      | _ => none
              | _ => none
      | _ => none

/-- Parse the elements of a JSON array after its opening bracket. -/
def parseElems : Nat → List Char → Option (List Json × List Char)
  | 0, _ => none
  | fuel + 1, s =>
      match parseVal fuel s with
      | none => none
      | some (v, r1) =>
          match skipWs r1 with
          | ',' :: r2 =>
              match parseElems fuel (skipWs r2) with
              | some (vs, r3) => some (v :: vs, r3)
              | none => none
          | ']' :: r2 => some ([v], r2)
          | _ => none

end

/-- Model of `json.loads`: parse one value and require only whitespace
after it; otherwise a decode error. -/
def jsonLoads (s : List Char) : Except String Json :=
  match parseVal (s.length + 1) s with
  | some (v, rest) =>
      if skipWs rest = [] then .ok v else .error "Extra data"
  | none => .error "Expecting value"

/-- The response-parsing tail of `extract_structured_data`:
brace slice, then JSON decode. -/
def parseLLMResponse (raw : String) : Except String Json :=
  jsonLoads (braceSlice raw.data)

/-! ## Merge engine (src/app.py, lines 197-231)

`buildRows` is the PO row loop; the GRN and MRN overlay loops share the
shape `for i, item in enumerate(items): if i < len(rows): <update rows[i]>`,
rendered by `overlayLoop` with the loop body passed in. A body returning
`.error` models a raised KeyError, which aborts the run. -/

/-- The GRN/MRN placeholder bindings appended to every merged row
(source lines 205-210). -/
def grnMrnPlaceholders : List (String × Json) :=
  [("GRN no", Json.str ""), ("GRN Date", Json.str ""),
   ("Delivered Qty", Json.str ""), ("Remarks", Json.str ""),
   ("MRN no", Json.str ""), ("Rejected Amount", Json.str "")]

/-- One merged row: `{**header, **item, <placeholders>}`. -/
def mergedRow (header item : Dict) : Dict :=
  dictInsertAll (dictInsertAll (dictInsertAll [] header) item)
    grnMrnPlaceholders

/-- The PO row loop: one merged row per PO item, in item order. -/
def buildRows (header : Dict) (items : List Dict) : List Dict :=
  items.map (mergedRow header)

/-- The common shape of the two overlay loops: walk the items with a
position counter, and where the position is inside the row list, replace
that row by the result of the loop body. -/
def overlayLoop (body : Dict → Dict → Except String Dict) :
    List Dict → Nat → List Dict → Except String (List Dict)
  | [], _, rows => .ok rows
  | item :: rest, i, rows =>
      if h : i < rows.length then
        match body (rows.get ⟨i, h⟩) item with
        | .ok r => overlayLoop body rest (i + 1) (rows.set i r)
        | .error e => .error e
      else overlayLoop body rest (i + 1) rows

/-- The four in-place assignments of the GRN loop body
(source lines 219-222). -/
def grnRowUpdate (row : Dict) (gno gdate : Json) (item : Dict) : Dict :=
  dictInsert
    (dictInsert
      (dictInsert (dictInsert row "GRN no" gno) "GRN Date" gdate)
      "Delivered Qty" (dictGet item "Delivered Qty" (Json.str "")))
    "Remarks" (dictGet item "Remarks" (Json.str ""))

/-- GRN loop body: the header subscripts `grn_data["header"]["GRN no"]` and
`["GRN Date"]` raise a KeyError when absent; the item fields use
`item.get(..., "")`. -/
def grnBody (hdr : Dict) (row item : Dict) : Except String Dict :=
  match dictFind? hdr "GRN no", dictFind? hdr "GRN Date" with
  | some gno, some gdate => .ok (grnRowUpdate row gno gdate item)
  | _, _ => .error "KeyError: GRN header field"

/-- The GRN overlay loop (source lines 217-222). -/
def grnOverlay (hdr : Dict) (items rows : List Dict) :
    Except String (List Dict) :=
  overlayLoop (grnBody hdr) items 0 rows

/-- The two in-place assignments of the MRN loop body
(source lines 230-231). -/
def mrnRowUpdate (row : Dict) (mno : Json) (item : Dict) : Dict :=
  dictInsert (dictInsert row "MRN no" mno)
    "Rejected Amount" (dictGet item "Rejected Amount" (Json.str ""))

/-- MRN loop body: `mrn_data["header"]["MRN no"]` raises a KeyError when
absent; the item field uses `item.get("Rejected Amount", "")`. -/
def mrnBody (hdr : Dict) (row item : Dict) : Except String Dict :=
  match dictFind? hdr "MRN no" with
  | some mno => .ok (mrnRowUpdate row mno item)
  | none => .error "KeyError: MRN header field"

/-- The MRN overlay loop (source lines 228-231). -/
def mrnOverlay (hdr : Dict) (items rows : List Dict) :
    Except String (List Dict) :=
  overlayLoop (mrnBody hdr) items 0 rows

/-- The whole merge engine: seed the rows from the PO result, then apply
the GRN overlay, then the MRN overlay. -/
def mergePipeline (po grn mrn : ExtractionResult) :
    Except String (List Dict) :=
  match grnOverlay grn.header grn.items (buildRows po.header po.items) with
  | .error e => .error e
  | .ok rows1 =>
      match mrnOverlay mrn.header mrn.items rows1 with
      | .error e => .error e
      | .ok rows2 => .ok rows2

/-! ## Overlay loop lemmas -/

theorem overlayLoop_nil_rows (body : Dict → Dict → Except String Dict) :
    ∀ items i, overlayLoop body items i [] = .ok [] := by
  intro items
  induction items with
  | nil => intro i; rfl
  | cons it rest ih =>
      intro i
      simp only [overlayLoop]
      rw [dif_neg (by simp)]
      exact ih (i + 1)

theorem overlayLoop_length (body : Dict → Dict → Except String Dict) :
    ∀ items i rows rows', overlayLoop body items i rows = .ok rows' →
      rows'.length = rows.length := by
  intro items
  induction items with
  | nil =>
      intro i rows rows' h
      simp only [overlayLoop] at h
      injection h with h'
      rw [h']
  | cons it rest ih =>
      intro i rows rows' h
      simp only [overlayLoop] at h
      split at h
      · split at h
        · rename_i r hb
          have := ih _ _ _ h
          simpa [List.length_set] using this
        · exact absurd h (by simp)
      · exact ih _ _ _ h

theorem overlayLoop_untouched (body : Dict → Dict → Except String Dict) :
    ∀ items i rows rows', overlayLoop body items i rows = .ok rows' →
      ∀ j, j < i ∨ i + items.length ≤ j → rows'[j]? = rows[j]? := by
  intro items
  induction items with
  | nil =>
      intro i rows rows' h j hj
      simp only [overlayLoop] at h
      injection h with h'
      rw [← h']
  | cons it rest ih =>
      intro i rows rows' h j hj
      simp only [overlayLoop] at h
      split at h
      · rename_i hlt
        split at h
        · rename_i r hb
          have hstep := ih _ _ _ h j (by simp at hj ⊢; omega)
          rw [hstep, List.getElem?_set_ne (by simp at hj; omega)]
        · exact absurd h (by simp)
      · exact ih _ _ _ h j (by simp at hj ⊢; omega)

theorem overlayLoop_pointwise (body : Dict → Dict → Except String Dict)
    (f : Dict → Dict → Dict)
    (hbody : ∀ row item, body row item = .ok (f row item)) :
    ∀ items i rows, ∃ rows',
      overlayLoop body items i rows = .ok rows' ∧
        ∀ j, rows'[j]? = (rows[j]?).map
          (fun r =>
            if i ≤ j ∧ j - i < items.length then f r (items.getD (j - i) [])
            else r) := by
  intro items
  induction items with
  | nil =>
      intro i rows
      refine ⟨rows, rfl, ?_⟩
      intro j
      cases hj : rows[j]? with
      | none => simp
      | some r => simp
  | cons it rest ih =>
      intro i rows
      by_cases h : i < rows.length
      · obtain ⟨rows', heq, hpt⟩ := ih (i + 1) (rows.set i (f (rows.get ⟨i, h⟩) it))
        refine ⟨rows', ?_, ?_⟩
        · have hb := hbody (rows.get ⟨i, h⟩) it
          simp only [overlayLoop]
          rw [dif_pos h, hb]
          exact heq
        · intro j
          rw [hpt j]
          by_cases hji : j = i
          · subst hji
            rw [List.getElem?_set_self (by simpa using h)]
            rw [List.getElem?_eq_getElem h]
            simp only [Option.map_some']
            rw [if_neg (by omega)]
            rw [if_pos ⟨le_refl _, by simp⟩]
            simp [List.get_eq_getElem]
          · rw [List.getElem?_set_ne (by omega)]
            cases hj : rows[j]? with
            | none => simp
            | some r =>
                simp only [Option.map_some']
                congr 1
                simp only [List.length_cons]
                by_cases hc : i ≤ j ∧ j - i < rest.length + 1
                · rw [if_pos (by omega), if_pos hc]
                  have hsub : j - i = (j - (i + 1)) + 1 := by omega
                  rw [hsub, List.getD_cons_succ]
                · rw [if_neg (by omega), if_neg hc]
      · obtain ⟨rows', heq, hpt⟩ := ih (i + 1) rows
        refine ⟨rows', ?_, ?_⟩
        · simp only [overlayLoop]
          rw [dif_neg h]
          exact heq
        · intro j
          rw [hpt j]
          cases hj : rows[j]? with
          | none => simp
          | some r =>
              have hjlen : j < rows.length := (List.getElem?_eq_some.mp hj).1
              simp only [Option.map_some']
              rw [if_neg (by omega), if_neg (by omega)]

theorem overlayLoop_frame (body : Dict → Dict → Except String Dict)
    (P : String → Prop)
    (hbody : ∀ row item r, body row item = .ok r →
      ∀ k, P k → dictFind? r k = dictFind? row k) :
    ∀ (items : List Dict) (i : Nat) (rows rows' : List Dict),
      overlayLoop body items i rows = .ok rows' →
      ∀ (j : Nat) (k : String), P k →
        (rows'[j]?).map (fun r => dictFind? r k)
          = (rows[j]?).map (fun r => dictFind? r k) := by
  intro items
  induction items with
  | nil =>
      intro i rows rows' h j k hk
      simp only [overlayLoop] at h
      injection h with h'
      rw [← h']
  | cons it rest ih =>
      intro i rows rows' h j k hk
      simp only [overlayLoop] at h
      split at h
      · rename_i hlt
        split at h
        · rename_i r hb
          have hstep := ih _ _ _ h j k hk
          rw [hstep]
          by_cases hji : j = i
          · subst hji
            rw [List.getElem?_set_self (by simpa using hlt)]
            rw [List.getElem?_eq_getElem hlt]
            simp only [Option.map_some']
            rw [hbody _ _ _ hb k hk]
            simp [List.get_eq_getElem]
          · rw [List.getElem?_set_ne (by omega)]
        · exact absurd h (by simp)
      · exact ih _ _ _ h j k hk

theorem overlayLoop_error_head (body : Dict → Dict → Except String Dict)
    (it : Dict) (rest rows : List Dict) (e : String)
    (h0 : 0 < rows.length)
    (hb : body (rows.get ⟨0, h0⟩) it = .error e) :
    overlayLoop body (it :: rest) 0 rows = .error e := by
  simp only [overlayLoop]
  rw [dif_pos h0, hb]

/-! ## Brace-slice lemmas -/

theorem pyFindAux_not_mem (c : Char) :
    ∀ (s : List Char) (i : Nat), c ∉ s → pyFindAux c s i = -1 := by
  intro s
  induction s with
  | nil => intro i _; rfl
  | cons a rest ih =>
      intro i h
      rw [List.mem_cons, not_or] at h
      obtain ⟨h1, h2⟩ := h
      rw [pyFindAux, if_neg (fun hh => h1 hh.symm)]
      exact ih (i + 1) h2

theorem pyFindAux_bounds (c : Char) :
    ∀ (s : List Char) (i j : Nat), pyFindAux c s i = (j : Int) →
      i ≤ j ∧ j < i + s.length := by
  intro s
  induction s with
  | nil =>
      intro i j h
      rw [pyFindAux] at h
      omega
  | cons a rest ih =>
      intro i j h
      rw [pyFindAux] at h
      by_cases ha : a = c
      · rw [if_pos ha] at h
        have : i = j := by omega
        simp [List.length_cons]
        omega
      · rw [if_neg ha] at h
        have := ih (i + 1) j h
        simp [List.length_cons]
        omega

theorem pyFindAux_total (c : Char) :
    ∀ (s : List Char) (i : Nat),
      pyFindAux c s i = -1 ∨ ∃ j : Nat, pyFindAux c s i = (j : Int) := by
  intro s
  induction s with
  | nil => intro i; left; rfl
  | cons a rest ih =>
      intro i
      rw [pyFindAux]
      by_cases ha : a = c
      · right; exact ⟨i, by rw [if_pos ha]⟩
      · rw [if_neg ha]; exact ih (i + 1)

theorem pyFindAux_zero_head (c : Char) (s : List Char)
    (h : pyFindAux c s 0 = (0 : Int)) : ∃ t, s = c :: t := by
  cases s with
  | nil => exact absurd h (by rw [pyFindAux]; omega)
  | cons a rest =>
      by_cases ha : a = c
      · exact ⟨rest, by rw [ha]⟩
      · rw [pyFindAux, if_neg ha] at h
        have := pyFindAux_bounds c rest 1 0 h
        omega

theorem pyIndexClamp_neg_one (len : Nat) : pyIndexClamp len (-1) = len - 1 := by
  rw [pyIndexClamp, if_pos (by norm_num)]
  rw [show (-1 + (len : Int)).toNat = len - 1 from by omega]
  exact Nat.min_eq_left (by omega)

theorem pyIndexClamp_ofNat (len n : Nat) (h : n ≤ len) :
    pyIndexClamp len (n : Int) = n := by
  rw [pyIndexClamp, if_neg (by omega)]
  rw [show ((n : Int)).toNat = n from by omega]
  exact Nat.min_eq_left h

/-- With no opening brace in the text, the Python slice degenerates to the
empty string or to the single final closing brace; both fail to decode. -/
theorem braceSlice_no_open (raw : List Char) (h : '{' ∉ raw) :
    braceSlice raw = [] ∨ braceSlice raw = ['}'] := by
  have hfind : pyFind raw '{' = -1 := pyFindAux_not_mem '{' raw 0 h
  rw [braceSlice, hfind]
  rcases pyFindAux_total '}' raw.reverse 0 with hr | ⟨jr, hr⟩
  · left
    rw [pySlice, pyRfind, hr]
    simp only [if_pos (by norm_num : (-1 : Int) < 0)]
    rw [show (-1 : Int) + 1 = ((0 : Nat) : Int) from by norm_num]
    rw [pyIndexClamp_neg_one, pyIndexClamp_ofNat _ _ (by omega)]
    simp
  · have hb := pyFindAux_bounds '}' raw.reverse 0 jr hr
    rw [List.length_reverse] at hb
    rw [pySlice, pyRfind, hr]
    rw [if_neg (by omega)]
    rw [pyIndexClamp_neg_one]
    rw [show (raw.length : Int) - 1 - (jr : Int) + 1 = ((raw.length - jr : Nat) : Int) from by omega]
    rw [pyIndexClamp_ofNat _ _ (by omega)]
    by_cases hz : jr = 0
    · right
      subst hz
      obtain ⟨t, ht⟩ := pyFindAux_zero_head '}' raw.reverse hr
      have hraw : raw = t.reverse ++ ['}'] := by
        have := congrArg List.reverse ht
        simpa using this
      rw [hraw]
      have hlen : (t.reverse ++ ['}']).length = t.length + 1 := by simp
      rw [hlen]
      rw [show t.length + 1 - 1 = t.reverse.length from by simp]
      rw [List.drop_left]
      rw [show t.reverse.length = t.length from by simp]
      simp
    · left
      rw [show raw.length - jr - (raw.length - 1) = 0 from by omega]
      simp

/-- When both braces occur (first opening at `i`, last closing at `j`,
`i ≤ j`), the brace slice is exactly the inclusive segment between them. -/
theorem braceSlice_of_braces (raw : List Char) (i j : Nat)
    (hi : pyFind raw '{' = (i : Int)) (hj : pyRfind raw '}' = (j : Int))
    (_hij : i ≤ j) :
    braceSlice raw = (raw.drop i).take (j + 1 - i) := by
  have hib := pyFindAux_bounds '{' raw 0 i hi
  have hjlen : j < raw.length := by
    rw [pyRfind] at hj
    rcases pyFindAux_total '}' raw.reverse 0 with hr | ⟨jr, hr⟩
    · rw [hr] at hj
      rw [if_pos (by norm_num)] at hj
      omega
    · have hb := pyFindAux_bounds '}' raw.reverse 0 jr hr
      rw [List.length_reverse] at hb
      rw [hr] at hj
      by_cases hneg : (jr : Int) < 0
      · omega
      · rw [if_neg hneg] at hj
        omega
  rw [braceSlice, hi, hj]
  rw [show (j : Int) + 1 = ((j + 1 : Nat) : Int) from by omega]
  rw [pySlice, pyIndexClamp_ofNat _ _ (by omega), pyIndexClamp_ofNat _ _ (by omega)]

/-! ## Tabular exporter (src/app.py, lines 233-242)

Models the observable behaviour of `pd.DataFrame(rows)` followed by
`df.to_excel(buffer, index=False)` and a re-read of the sheet: the column
header row is the union of the row keys in first-seen order, there is one
cell row per merged row (a missing key yields a null cell), there is no
index column, and cell values are carried unchanged (in particular string
values stay strings). -/

/-- Column collection of `pd.DataFrame` over a list of dicts:
union of the keys in first-seen order. -/
def dfColumns (rows : List Dict) : List String :=
  rows.foldl
    (fun acc r =>
      r.foldl (fun acc2 e => if acc2.contains e.1 then acc2 else acc2 ++ [e.1])
        acc)
    []

/-- A written spreadsheet: the header row and the cell grid
(no index column). -/
structure ExcelSheet where
  columns : List String
  cells : List (List Json)

/-- Model of the export: one sheet, header = first-seen column union,
one cell row per merged row. -/
def dfToExcel (rows : List Dict) : ExcelSheet :=
  ⟨dfColumns rows,
   rows.map (fun r => (dfColumns rows).map (fun c => dictGet r c Json.null))⟩

/-- Model of re-reading the sheet: one mapping per cell row, pairing the
header with the cells. -/
def readExcelRows (s : ExcelSheet) : List Dict :=
  s.cells.map (fun cs => s.columns.zip cs)

/-! ## Process flow (src/app.py, lines 166-242)

The button handler: the upload guard, then per document the text
extraction, the inference call with the built prompt, the JSON decode of
the response, and the merge and export. The external inference service is
a function from the prompt string to the raw response text. The `Step`
trace records which processing effects have been reached, so that the
guard theorems can state that nothing runs on a missing upload. -/

/-- An uploaded PDF, given by its pages' extractable text. -/
structure UploadedFile where
  pages : List (Option String)

/-- Observable processing effects of one run. -/
inductive Step where
  | extractText : String → Step
  | inferenceCall : String → Step
  | buildTable : Step
  | exportExcel : Step
deriving DecidableEq

/-- Model of `extract_structured_data`: build the prompt for the document
type, call the inference service, brace-slice and decode the response. -/
def extract_structured_data (llm : String → String)
    (pdf_text pdf_type : String) : Except String Json :=
  parseLLMResponse (llm (buildPrompt pdf_type pdf_text))

/-- Conversion of a decoded response into header/items, modelling the
`data["header"]` / `data["items"]` subscripts and the iteration over the
items (a KeyError or a non-mapping shape aborts the run). -/
def toExtraction (j : Json) : Except String ExtractionResult :=
  match j with
  | Json.obj d =>
      match dictFind? d "header", dictFind? d "items" with
      | some (Json.obj h), some (Json.arr its) =>
          match allDicts its with
          | some ds => .ok ⟨h, ds⟩
          | none => .error "TypeError: item is not a mapping"
      | some _, some _ => .error "TypeError: header or items malformed"
      | _, _ => .error "KeyError: header or items"
  | _ => .error "TypeError: extraction result is not a mapping"
where
  /-- Each item of the decoded items list must itself be a mapping. -/
  allDicts : List Json → Option (List Dict)
    | [] => some []
    | Json.obj d :: rest =>
        match allDicts rest with
        | some ds => some (d :: ds)
        | none => none
    | _ :: _ => none

/-- The processing body behind the upload guard: the three
extract-prompt-infer-decode stages in source order, the row seeding and
the two overlays, then the table/export stage. Returns the trace of
reached effects together with the outcome. -/
def runPipeline (po grn mrn : UploadedFile) (llm : String → String) :
    List Step × Except String (List Dict × ExcelSheet) :=
  let s1 := [Step.extractText "PO", Step.inferenceCall "PO"]
  match Except.bind (extract_structured_data llm (extract_pdf_text po.pages) "PO") toExtraction with
  | .error e => (s1, .error e)
  | .ok poRes =>
      let rows := buildRows poRes.header poRes.items
      let s2 := s1 ++ [Step.extractText "GRN", Step.inferenceCall "GRN"]
      match Except.bind (extract_structured_data llm (extract_pdf_text grn.pages) "GRN") toExtraction with
      | .error e => (s2, .error e)
      | .ok grnRes =>
          match grnOverlay grnRes.header grnRes.items rows with
          | .error e => (s2, .error e)
          | .ok rows1 =>
              let s3 := s2 ++ [Step.extractText "MRN", Step.inferenceCall "MRN"]
              match Except.bind (extract_structured_data llm (extract_pdf_text mrn.pages) "MRN") toExtraction with
              | .error e => (s3, .error e)
              | .ok mrnRes =>
                  match mrnOverlay mrnRes.header mrnRes.items rows1 with
                  | .error e => (s3, .error e)
                  | .ok rows2 =>
                      (s3 ++ [Step.buildTable, Step.exportExcel],
                       .ok (rows2, dfToExcel rows2))

/-- The button handler (source lines 173-177): with any upload missing,
halt with the error message before any processing step; otherwise run the
pipeline. -/
def processPDFs (po_file grn_file mrn_file : Option UploadedFile)
    (llm : String → String) :
    List Step × Except String (List Dict × ExcelSheet) :=
  match po_file, grn_file, mrn_file with
  | some po, some grn, some mrn => runPipeline po grn mrn llm
  | _, _, _ => ([], .error "Please upload PO, GRN and MRN PDFs")

/-! ## Claim theorems -/

/-- C5: the document loader returns the concatenation of the truthy
per-page texts, each page's text followed by the separating newline;
pages yielding no extractable text contribute nothing; an empty or
image-only PDF (no page contributes) yields the empty string, with no
error path in the function. -/
theorem pdf_loader_concatenates_pages (pages : List (Option String)) :
    extract_pdf_text pages
      = joinAll ((pageTexts pages).map (fun t => t ++ "\n"))
  ∧ (pageTexts pages = [] → extract_pdf_text pages = "") := by
  have hmain : extract_pdf_text pages
      = joinAll ((pageTexts pages).map (fun t => t ++ "\n")) := by
    rw [extract_pdf_text, extract_pdf_text_foldl pages ""]
    apply String.ext
    simp [String.data_append]
  refine ⟨hmain, fun h => ?_⟩
  rw [hmain, h]
  rfl

/-- Witness for C5 at a PDF whose pages are a None extraction and an empty
extraction: the loader returns the empty string. -/
theorem pdf_loader_concatenates_pages_witness :
    extract_pdf_text [none, some ""] = "" :=
  (pdf_loader_concatenates_pages [none, some ""]).2 rfl

/-- C7: if any of the three uploads is absent at trigger time, the handler
halts with the user-visible message, with an empty effect trace: no text
extraction, no inference call, no merge and no export have run. -/
theorem missing_upload_halts (po_file grn_file mrn_file : Option UploadedFile)
    (llm : String → String)
    (h : po_file = none ∨ grn_file = none ∨ mrn_file = none) :
    processPDFs po_file grn_file mrn_file llm
      = ([], .error "Please upload PO, GRN and MRN PDFs") := by
  rcases h with h | h | h
  · subst h; rfl
  · subst h; cases po_file <;> rfl
  · subst h; cases po_file <;> cases grn_file <;> rfl

/-- Witness for C7: missing PO upload. -/
theorem missing_upload_halts_witness :
    processPDFs none (some ⟨[]⟩) (some ⟨[]⟩) (fun _ => "")
      = ([], .error "Please upload PO, GRN and MRN PDFs") :=
  missing_upload_halts none (some ⟨[]⟩) (some ⟨[]⟩) (fun _ => "") (Or.inl rfl)

/-- C8: exporting the single merged row with string values "1" and "2"
and re-reading the sheet yields one row, columns a and b in first-seen
order, the same string values unchanged, and no index column. -/
theorem excel_roundtrip_single_row :
    dfToExcel [[("a", Json.str "1"), ("b", Json.str "2")]]
      = ⟨["a", "b"], [[Json.str "1", Json.str "2"]]⟩
  ∧ readExcelRows (dfToExcel [[("a", Json.str "1"), ("b", Json.str "2")]])
      = [[("a", Json.str "1"), ("b", Json.str "2")]] :=
  ⟨rfl, rfl⟩

/-- C1: the merge engine produces exactly one merged row per PO item, in
PO item order; a pipeline result has as many rows as there are PO items
(the GRN/MRN overlays never add rows); and an empty PO item list gives
zero rows regardless of the GRN and MRN content. -/
theorem merge_row_per_po_item (po grn mrn : ExtractionResult) :
    (buildRows po.header po.items).length = po.items.length
  ∧ (∀ i : Nat, (buildRows po.header po.items)[i]?
      = (po.items[i]?).map (mergedRow po.header))
  ∧ (∀ out, mergePipeline po grn mrn = .ok out →
      out.length = po.items.length)
  ∧ (po.items = [] → mergePipeline po grn mrn = .ok []) := by
  refine ⟨by simp [buildRows], ?_, ?_, ?_⟩
  · intro i
    simp [buildRows]
  · intro out h
    simp only [mergePipeline] at h
    split at h
    · exact absurd h (by simp)
    · rename_i rows1 hg
      split at h
      · exact absurd h (by simp)
      · rename_i rows2 hm
        injection h with h'
        subst h'
        have h1 := overlayLoop_length (grnBody grn.header) _ _ _ _ hg
        have h2 := overlayLoop_length (mrnBody mrn.header) _ _ _ _ hm
        simp [buildRows] at h1
        omega
  · intro h
    have hg : grnOverlay grn.header grn.items (buildRows po.header po.items)
        = .ok [] := by
      rw [h]
      exact overlayLoop_nil_rows _ _ _
    have hm : mrnOverlay mrn.header mrn.items [] = .ok [] :=
      overlayLoop_nil_rows _ _ _
    simp only [mergePipeline, hg, hm]

/-- Witness for C1 at an empty PO item list with nonempty GRN and MRN
results: the pipeline yields zero rows. -/
theorem merge_row_per_po_item_witness :
    mergePipeline ⟨[("po no", Json.str "1")], []⟩
      ⟨[("GRN no", Json.str "g"), ("GRN Date", Json.str "d")],
       [[("Delivered Qty", Json.str "5")]]⟩
      ⟨[("MRN no", Json.str "m")], [[("Rejected Amount", Json.str "2")]]⟩
      = .ok [] :=
  (merge_row_per_po_item _ _ _).2.2.2 rfl

/-- C9: every document type other than PO and GRN (not only the literal
MRN) selects the MRN schema and the MRN instructions, and the selection
is total: every type selects one of the three fixed schema/instruction
pairs, so no input type makes the dispatch fail. -/
theorem mrn_fallback_dispatch :
    (∀ t : String, t ≠ "PO" → t ≠ "GRN" →
      instructionsFor t = mrnInstructions ∧ schemaDumpFor t = mrnSchemaDump)
  ∧ (∀ t : String,
      (instructionsFor t = poInstructions ∧ schemaDumpFor t = poSchemaDump)
      ∨ (instructionsFor t = grnInstructions
          ∧ schemaDumpFor t = grnSchemaDump)
      ∨ (instructionsFor t = mrnInstructions
          ∧ schemaDumpFor t = mrnSchemaDump)) := by
  constructor
  · intro t h1 h2
    exact ⟨by rw [instructionsFor, if_neg h1, if_neg h2],
           by rw [schemaDumpFor, if_neg h1, if_neg h2]⟩
  · intro t
    by_cases h1 : t = "PO"
    · exact Or.inl ⟨by rw [instructionsFor, if_pos h1],
        by rw [schemaDumpFor, if_pos h1]⟩
    · by_cases h2 : t = "GRN"
      · exact Or.inr (Or.inl ⟨by rw [instructionsFor, if_neg h1, if_pos h2],
          by rw [schemaDumpFor, if_neg h1, if_pos h2]⟩)
      · exact Or.inr (Or.inr ⟨by rw [instructionsFor, if_neg h1, if_neg h2],
          by rw [schemaDumpFor, if_neg h1, if_neg h2]⟩)

/-- Witness for C9 at the document type XYZ. -/
theorem mrn_fallback_dispatch_witness :
    instructionsFor "XYZ" = mrnInstructions
      ∧ schemaDumpFor "XYZ" = mrnSchemaDump :=
  mrn_fallback_dispatch.1 "XYZ" (by decide) (by decide)

set_option maxRecDepth 16384 in
/-- C6: for each of the three document types the built prompt contains a
role statement naming the type, the complete type-specific instruction
block, the serialized schema with every literal field name of that type's
schema, and ends with the raw PDF text delimited by the sentinel markers;
the type dispatch selects exactly one of the three fixed (pairwise
distinct) instruction sets. -/
theorem prompt_contains_schema_and_instructions :
    (∀ pdf_type pdf_text : String,
       buildPrompt pdf_type pdf_text
         = promptHead pdf_type ++ (pdf_text ++ "\n>>>\n"))
  ∧ (strContains (promptHead "PO")
        "You are an expert at reading Indian PO PDFs." = true
      ∧ strContains (promptHead "PO") poInstructions = true
      ∧ strContains (promptHead "PO") poSchemaDump = true
      ∧ poFieldNames.all
          (fun k => strContains (promptHead "PO") ("\"" ++ k ++ "\"")) = true)
  ∧ (strContains (promptHead "GRN")
        "You are an expert at reading Indian GRN PDFs." = true
      ∧ strContains (promptHead "GRN") grnInstructions = true
      ∧ strContains (promptHead "GRN") grnSchemaDump = true
      ∧ grnFieldNames.all
          (fun k => strContains (promptHead "GRN") ("\"" ++ k ++ "\"")) = true)
  ∧ (strContains (promptHead "MRN")
        "You are an expert at reading Indian MRN PDFs." = true
      ∧ strContains (promptHead "MRN") mrnInstructions = true
      ∧ strContains (promptHead "MRN") mrnSchemaDump = true
      ∧ mrnFieldNames.all
          (fun k => strContains (promptHead "MRN") ("\"" ++ k ++ "\"")) = true)
  ∧ (instructionsFor "PO" = poInstructions
      ∧ instructionsFor "GRN" = grnInstructions
      ∧ instructionsFor "MRN" = mrnInstructions)
  ∧ (poInstructions ≠ grnInstructions ∧ poInstructions ≠ mrnInstructions
      ∧ grnInstructions ≠ mrnInstructions) :=
  ⟨buildPrompt_decompose,
   ⟨rfl, rfl, rfl, rfl⟩, ⟨rfl, rfl, rfl, rfl⟩, ⟨rfl, rfl, rfl, rfl⟩,
   ⟨rfl, rfl, rfl⟩, by decide, by decide, by decide⟩

/-- C3: the response parser slices the raw text from the first opening
brace to the last closing brace inclusive and decodes that substring as
JSON; on the prose-wrapped example it returns the mapping a to 1; on text
with no opening brace it fails with a decode error; on invalid JSON
between the braces it fails with a decode error. -/
theorem response_parser_brace_slice :
    (∀ (raw : String) (i j : Nat),
       pyFind raw.data '{' = (i : Int) → pyRfind raw.data '}' = (j : Int) →
       i ≤ j →
       parseLLMResponse raw
         = jsonLoads ((raw.data.drop i).take (j + 1 - i)))
  ∧ parseLLMResponse "blah \x7b\"a\":1\x7d blah"
      = .ok (Json.obj [("a", Json.num 1)])
  ∧ (∀ raw : String, '{' ∉ raw.data → ∃ e, parseLLMResponse raw = .error e)
  ∧ (∃ e, parseLLMResponse "\x7ba:1\x7d" = .error e) := by
  refine ⟨?_, rfl, ?_, ⟨_, rfl⟩⟩
  · intro raw i j hi hj hij
    rw [parseLLMResponse, braceSlice_of_braces raw.data i j hi hj hij]
  · intro raw h
    rcases braceSlice_no_open raw.data h with hb | hb
    · exact ⟨"Expecting value", by rw [parseLLMResponse, hb]; rfl⟩
    · exact ⟨"Expecting value", by rw [parseLLMResponse, hb]; rfl⟩

/-- Witness for C3: the inclusive-slice characterization at a prose-wrapped
input whose first opening brace is at index 2 and last closing brace at
index 4, and the decode failure on brace-free text. -/
theorem response_parser_brace_slice_witness :
    parseLLMResponse "ab\x7b1\x7dcd"
      = jsonLoads ((("ab\x7b1\x7dcd" : String).data.drop 2).take (4 + 1 - 2))
  ∧ (∃ e, parseLLMResponse "no braces here" = .error e) :=
  ⟨response_parser_brace_slice.1 "ab\x7b1\x7dcd" 2 4 rfl rfl (by omega),
   response_parser_brace_slice.2.2.1 "no braces here" (by decide)⟩

/-- Sample PO extraction result with three items (spec test scenario). -/
def poSample : ExtractionResult :=
  ⟨[("po no", Json.str "100")],
   [[("Material Description", Json.str "W1"), ("Quantity", Json.str "1")],
    [("Material Description", Json.str "W2"), ("Quantity", Json.str "2")],
    [("Material Description", Json.str "W3"), ("Quantity", Json.str "3")]]⟩

/-- Sample GRN extraction result with two items. -/
def grnSample : ExtractionResult :=
  ⟨[("GRN no", Json.str "G1"), ("GRN Date", Json.str "D1")],
   [[("Delivered Qty", Json.str "5"), ("Remarks", Json.str "OK")],
    [("Delivered Qty", Json.str "6"), ("Remarks", Json.str "OK2")]]⟩

/-- Sample MRN extraction result with four items. -/
def mrnSample : ExtractionResult :=
  ⟨[("MRN no", Json.str "M1")],
   [[("Rejected Amount", Json.str "10")], [("Rejected Amount", Json.str "11")],
    [("Rejected Amount", Json.str "12")], [("Rejected Amount", Json.str "13")]]⟩

/-- The sample MRN result truncated to its first three items. -/
def mrnSampleFirstThree : ExtractionResult :=
  ⟨[("MRN no", Json.str "M1")],
   [[("Rejected Amount", Json.str "10")], [("Rejected Amount", Json.str "11")],
    [("Rejected Amount", Json.str "12")]]⟩

/-- The three merged rows the sample scenario must produce: GRN fields
populated in rows 0 and 1 only, row 2 keeping the empty GRN placeholders,
MRN fields populated in all three rows, the fourth MRN item dropped. -/
def mergedSampleRows : List Dict :=
  [[("po no", Json.str "100"), ("Material Description", Json.str "W1"),
    ("Quantity", Json.str "1"), ("GRN no", Json.str "G1"),
    ("GRN Date", Json.str "D1"), ("Delivered Qty", Json.str "5"),
    ("Remarks", Json.str "OK"), ("MRN no", Json.str "M1"),
    ("Rejected Amount", Json.str "10")],
   [("po no", Json.str "100"), ("Material Description", Json.str "W2"),
    ("Quantity", Json.str "2"), ("GRN no", Json.str "G1"),
    ("GRN Date", Json.str "D1"), ("Delivered Qty", Json.str "6"),
    ("Remarks", Json.str "OK2"), ("MRN no", Json.str "M1"),
    ("Rejected Amount", Json.str "11")],
   [("po no", Json.str "100"), ("Material Description", Json.str "W3"),
    ("Quantity", Json.str "3"), ("GRN no", Json.str ""),
    ("GRN Date", Json.str ""), ("Delivered Qty", Json.str ""),
    ("Remarks", Json.str ""), ("MRN no", Json.str "M1"),
    ("Rejected Amount", Json.str "12")]]

theorem grnBody_ok (hdr : Dict) (gno gdate : Json)
    (hno : dictFind? hdr "GRN no" = some gno)
    (hdt : dictFind? hdr "GRN Date" = some gdate) :
    ∀ row item, grnBody hdr row item
      = .ok (grnRowUpdate row gno gdate item) := by
  intro row item
  rw [grnBody, hno, hdt]

theorem mrnBody_ok (hdr : Dict) (mno : Json)
    (hno : dictFind? hdr "MRN no" = some mno) :
    ∀ row item, mrnBody hdr row item = .ok (mrnRowUpdate row mno item) := by
  intro row item
  rw [mrnBody, hno]

/-- C2: the GRN overlay writes each row at position i below the item count
from the GRN item at the same position i and leaves the remaining rows as
they are (so items beyond the row count are dropped without adding rows);
same for the MRN overlay; and on the 3-PO / 2-GRN / 4-MRN sample the
pipeline yields exactly the three expected rows, with the result unchanged
when the dropped fourth MRN item is removed beforehand. -/
theorem overlay_positional_indexed :
    (∀ (hdr : Dict) (gno gdate : Json) (items rows : List Dict),
       dictFind? hdr "GRN no" = some gno →
       dictFind? hdr "GRN Date" = some gdate →
       ∃ rows', grnOverlay hdr items rows = .ok rows' ∧
         ∀ j : Nat, rows'[j]? = (rows[j]?).map
           (fun r => if j < items.length
             then grnRowUpdate r gno gdate (items.getD j []) else r))
  ∧ (∀ (hdr : Dict) (mno : Json) (items rows : List Dict),
       dictFind? hdr "MRN no" = some mno →
       ∃ rows', mrnOverlay hdr items rows = .ok rows' ∧
         ∀ j : Nat, rows'[j]? = (rows[j]?).map
           (fun r => if j < items.length
             then mrnRowUpdate r mno (items.getD j []) else r))
  ∧ mergePipeline poSample grnSample mrnSample = .ok mergedSampleRows
  ∧ mergePipeline poSample grnSample mrnSampleFirstThree
      = mergePipeline poSample grnSample mrnSample := by
  refine ⟨?_, ?_, rfl, rfl⟩
  · intro hdr gno gdate items rows hno hdt
    obtain ⟨rows', heq, hpt⟩ :=
      overlayLoop_pointwise (grnBody hdr)
        (fun row item => grnRowUpdate row gno gdate item)
        (grnBody_ok hdr gno gdate hno hdt) items 0 rows
    refine ⟨rows', heq, fun j => ?_⟩
    rw [hpt j]
    simp only [Nat.zero_le, true_and, Nat.sub_zero]
  · intro hdr mno items rows hno
    obtain ⟨rows', heq, hpt⟩ :=
      overlayLoop_pointwise (mrnBody hdr)
        (fun row item => mrnRowUpdate row mno item)
        (mrnBody_ok hdr mno hno) items 0 rows
    refine ⟨rows', heq, fun j => ?_⟩
    rw [hpt j]
    simp only [Nat.zero_le, true_and, Nat.sub_zero]

/-- Witness for C2: the GRN positional description instantiated on one
item and one row with the header fields present. -/
theorem overlay_positional_indexed_witness :
    ∃ rows', grnOverlay [("GRN no", Json.str "g"), ("GRN Date", Json.str "d")]
        [[("Delivered Qty", Json.str "7")]] [[("po no", Json.str "1")]]
      = .ok rows' ∧
      ∀ j : Nat, rows'[j]?
        = (([[("po no", Json.str "1")]] : List Dict)[j]?).map
          (fun r => if j < ([[("Delivered Qty", Json.str "7")]] : List Dict).length
            then grnRowUpdate r (Json.str "g") (Json.str "d")
              (([[("Delivered Qty", Json.str "7")]] : List Dict).getD j [])
            else r) :=
  overlay_positional_indexed.1 _ (Json.str "g") (Json.str "d") _ _ rfl rfl

/-- C4: the GRN overlay changes only the four GRN fields of rows at
positions overlapping the GRN items — every other field of every row
keeps its value, and every row at a position at or beyond the item count
is entirely unchanged; same for the MRN overlay and its two fields. -/
theorem overlay_frame_effect :
    (∀ (hdr : Dict) (items rows rows' : List Dict),
       grnOverlay hdr items rows = .ok rows' →
       (∀ j : Nat, items.length ≤ j → rows'[j]? = rows[j]?)
       ∧ (∀ (j : Nat) (k : String), k ≠ "GRN no" → k ≠ "GRN Date" →
           k ≠ "Delivered Qty" → k ≠ "Remarks" →
           (rows'[j]?).map (fun r => dictFind? r k)
             = (rows[j]?).map (fun r => dictFind? r k)))
  ∧ (∀ (hdr : Dict) (items rows rows' : List Dict),
       mrnOverlay hdr items rows = .ok rows' →
       (∀ j : Nat, items.length ≤ j → rows'[j]? = rows[j]?)
       ∧ (∀ (j : Nat) (k : String), k ≠ "MRN no" → k ≠ "Rejected Amount" →
           (rows'[j]?).map (fun r => dictFind? r k)
             = (rows[j]?).map (fun r => dictFind? r k))) := by
  constructor
  · intro hdr items rows rows' h
    constructor
    · intro j hj
      exact overlayLoop_untouched _ _ _ _ _ h j (Or.inr (by omega))
    · intro j k h1 h2 h3 h4
      have hbody : ∀ row item r, grnBody hdr row item = .ok r →
          ∀ k', (k' ≠ "GRN no" ∧ k' ≠ "GRN Date" ∧ k' ≠ "Delivered Qty"
              ∧ k' ≠ "Remarks") →
            dictFind? r k' = dictFind? row k' := by
        intro row item r hb k' hk'
        rw [grnBody] at hb
        split at hb
        · injection hb with hb'
          subst hb'
          rw [grnRowUpdate,
              dictFind?_insert_ne _ _ _ _ (Ne.symm hk'.2.2.2),
              dictFind?_insert_ne _ _ _ _ (Ne.symm hk'.2.2.1),
              dictFind?_insert_ne _ _ _ _ (Ne.symm hk'.2.1),
              dictFind?_insert_ne _ _ _ _ (Ne.symm hk'.1)]
        · exact absurd hb (by simp)
      exact overlayLoop_frame _ _ hbody items 0 rows rows' h j k
        ⟨h1, h2, h3, h4⟩
  · intro hdr items rows rows' h
    constructor
    · intro j hj
      exact overlayLoop_untouched _ _ _ _ _ h j (Or.inr (by omega))
    · intro j k h1 h2
      have hbody : ∀ row item r, mrnBody hdr row item = .ok r →
          ∀ k', (k' ≠ "MRN no" ∧ k' ≠ "Rejected Amount") →
            dictFind? r k' = dictFind? row k' := by
        intro row item r hb k' hk'
        rw [mrnBody] at hb
        split at hb
        · injection hb with hb'
          subst hb'
          rw [mrnRowUpdate,
              dictFind?_insert_ne _ _ _ _ (Ne.symm hk'.2),
              dictFind?_insert_ne _ _ _ _ (Ne.symm hk'.1)]
        · exact absurd hb (by simp)
      exact overlayLoop_frame _ _ hbody items 0 rows rows' h j k ⟨h1, h2⟩

/-- Witness for C4: on a one-item, one-row GRN overlay the row at
position 1 (beyond the single item) is unchanged. -/
theorem overlay_frame_effect_witness :
    (([[("x", Json.str "v"), ("GRN no", Json.str "g"),
        ("GRN Date", Json.str "d"), ("Delivered Qty", Json.str ""),
        ("Remarks", Json.str "")]] : List Dict))[1]?
      = (([[("x", Json.str "v")]] : List Dict))[1]? :=
  (overlay_frame_effect.1
    [("GRN no", Json.str "g"), ("GRN Date", Json.str "d")]
    [[]] [[("x", Json.str "v")]] _ rfl).1 1 (by decide)

/-- C10: missing keys are handled asymmetrically by the overlays. With the
GRN header fields present, the overlay always succeeds and each
overlapping row receives `item.get(field, "")` — the empty string when the
item lacks the field; but a GRN header lacking GRN no or GRN Date (and an
MRN header lacking MRN no) raises a key-lookup error and aborts, provided
at least one item position overlaps a row; with zero overlapping positions
(no items, or no rows) no header key is read and no error occurs. -/
theorem overlay_missing_key_asymmetry :
    (∀ (hdr : Dict) (gno gdate : Json) (items rows : List Dict),
       dictFind? hdr "GRN no" = some gno →
       dictFind? hdr "GRN Date" = some gdate →
       ∃ rows', grnOverlay hdr items rows = .ok rows' ∧
         ∀ (j : Nat) (r' : Dict), rows'[j]? = some r' → j < items.length →
           dictFind? r' "Delivered Qty"
             = some (dictGet (items.getD j []) "Delivered Qty" (Json.str ""))
           ∧ dictFind? r' "Remarks"
             = some (dictGet (items.getD j []) "Remarks" (Json.str "")))
  ∧ (∀ (item : Dict) (k : String), dictFind? item k = none →
       dictGet item k (Json.str "") = Json.str "")
  ∧ (∀ (hdr : Dict) (items rows : List Dict),
       (dictFind? hdr "GRN no" = none ∨ dictFind? hdr "GRN Date" = none) →
       items ≠ [] → rows ≠ [] →
       grnOverlay hdr items rows = .error "KeyError: GRN header field")
  ∧ (∀ (hdr : Dict) (rows : List Dict), grnOverlay hdr [] rows = .ok rows)
  ∧ (∀ (hdr : Dict) (items : List Dict), grnOverlay hdr items [] = .ok [])
  ∧ (∀ (hdr : Dict) (mno : Json) (items rows : List Dict),
       dictFind? hdr "MRN no" = some mno →
       ∃ rows', mrnOverlay hdr items rows = .ok rows' ∧
         ∀ (j : Nat) (r' : Dict), rows'[j]? = some r' → j < items.length →
           dictFind? r' "Rejected Amount"
             = some (dictGet (items.getD j []) "Rejected Amount"
                 (Json.str "")))
  ∧ (∀ (hdr : Dict) (items rows : List Dict),
       dictFind? hdr "MRN no" = none → items ≠ [] → rows ≠ [] →
       mrnOverlay hdr items rows = .error "KeyError: MRN header field")
  ∧ (∀ (hdr : Dict) (rows : List Dict), mrnOverlay hdr [] rows = .ok rows)
  ∧ (∀ (hdr : Dict) (items : List Dict), mrnOverlay hdr items [] = .ok []) := by
  refine ⟨?_, ?_, ?_, ?_, ?_, ?_, ?_, ?_, ?_⟩
  · intro hdr gno gdate items rows hno hdt
    obtain ⟨rows', heq, hpt⟩ :=
      overlayLoop_pointwise (grnBody hdr)
        (fun row item => grnRowUpdate row gno gdate item)
        (grnBody_ok hdr gno gdate hno hdt) items 0 rows
    refine ⟨rows', heq, ?_⟩
    intro j r' hj hjlen
    have hval := hpt j
    rw [hj] at hval
    cases hrow : rows[j]? with
    | none => rw [hrow] at hval; exact absurd hval (by simp)
    | some r =>
        rw [hrow] at hval
        simp only [Option.map_some'] at hval
        injection hval with hval'
        simp only [Nat.sub_zero] at hval'
        rw [if_pos ⟨Nat.zero_le j, hjlen⟩] at hval'
        subst hval'
        constructor
        · rw [grnRowUpdate,
              dictFind?_insert_ne _ _ _ _ (by decide),
              dictFind?_insert_self]
        · rw [grnRowUpdate, dictFind?_insert_self]
  · intro item k hk
    rw [dictGet, hk]
    rfl
  · intro hdr items rows hcase hitems hrows
    cases items with
    | nil => exact absurd rfl hitems
    | cons it rest =>
        cases rows with
        | nil => exact absurd rfl hrows
        | cons r0 rrest =>
            have h0 : 0 < (r0 :: rrest).length := by simp
            have hb : grnBody hdr ((r0 :: rrest).get ⟨0, h0⟩) it
                = .error "KeyError: GRN header field" := by
              rw [grnBody]
              rcases hcase with hno | hdt
              · rw [hno]
              · cases hno' : dictFind? hdr "GRN no" <;> rw [hdt]
            exact overlayLoop_error_head _ it rest (r0 :: rrest) _ h0 hb
  · intro hdr rows
    rfl
  · intro hdr items
    exact overlayLoop_nil_rows _ _ _
  · intro hdr mno items rows hno
    obtain ⟨rows', heq, hpt⟩ :=
      overlayLoop_pointwise (mrnBody hdr)
        (fun row item => mrnRowUpdate row mno item)
        (mrnBody_ok hdr mno hno) items 0 rows
    refine ⟨rows', heq, ?_⟩
    intro j r' hj hjlen
    have hval := hpt j
    rw [hj] at hval
    cases hrow : rows[j]? with
    | none => rw [hrow] at hval; exact absurd hval (by simp)
    | some r =>
        rw [hrow] at hval
        simp only [Option.map_some'] at hval
        injection hval with hval'
        simp only [Nat.sub_zero] at hval'
        rw [if_pos ⟨Nat.zero_le j, hjlen⟩] at hval'
        subst hval'
        rw [mrnRowUpdate, dictFind?_insert_self]
  · intro hdr items rows hno hitems hrows
    cases items with
    | nil => exact absurd rfl hitems
    | cons it rest =>
        cases rows with
        | nil => exact absurd rfl hrows
        | cons r0 rrest =>
            have h0 : 0 < (r0 :: rrest).length := by simp
            have hb : mrnBody hdr ((r0 :: rrest).get ⟨0, h0⟩) it
                = .error "KeyError: MRN header field" := by
              rw [mrnBody, hno]
            exact overlayLoop_error_head _ it rest (r0 :: rrest) _ h0 hb
  · intro hdr rows
    rfl
  · intro hdr items
    exact overlayLoop_nil_rows _ _ _

/-- Witness for C10: a GRN header lacking its fields aborts the overlay as
soon as one item position overlaps one row. -/
theorem overlay_missing_key_asymmetry_witness :
    grnOverlay [] [[]] [[("po no", Json.str "1")]]
      = .error "KeyError: GRN header field" :=
  overlay_missing_key_asymmetry.2.2.1 [] [[]] [[("po no", Json.str "1")]]
    (Or.inl rfl) (List.cons_ne_nil _ _) (List.cons_ne_nil _ _)
